import Mathlib

/-!
# Verification of the partition-lifecycle core of aws-glue-partition-manager

Shallow embedding of `src/partition.ts`: the pure helpers
(`parsePartitionValues`, `buildS3Location`) and the three operation
handlers (`partitionExists`, `addPartition`, `deletePartition`).

The remote Glue catalog client is modelled as a record of response
functions (one per AWS SDK command the code issues); each operation
handler is embedded as a pure function returning both its
`PartitionResult` and the ordered list of remote calls it issued, so
that claims about "no create call is issued" are statable.

JavaScript string primitives used by the source (`String.split` on a
one-character separator, `String.trim`, the slash-stripping regex
replace) are embedded as structurally recursive functions on `List Char`.
-/

namespace GluePartitionManager

/-! ## JavaScript string primitives -/

/-- JS `str.split(sep)` for a one-character separator, on char lists:
always returns at least one (possibly empty) segment. -/
def splitOnChar (c : Char) : List Char → List (List Char)
  | [] => [[]]
  | x :: xs =>
    match splitOnChar c xs with
    | [] => [[]]
    | h :: t => if x = c then [] :: h :: t else (x :: h) :: t

/-- JS `str.split(sep)` for a one-character separator, on strings. -/
def jsSplit (c : Char) (s : String) : List String :=
  (splitOnChar c s.data).map (fun l => ⟨l⟩)

/-- JS `str.trim()`: drop whitespace from both ends. -/
def jsTrim (s : String) : String :=
  ⟨((s.data.dropWhile Char.isWhitespace).reverse.dropWhile Char.isWhitespace).reverse⟩

/-! ## `parsePartitionValues` (src/partition.ts lines 38-61) -/

/-- The segments of a partition spec string: split on `;`, trim each
segment, discard empty segments (lines 39-42). -/
def segsOf (s : String) : List String :=
  ((jsSplit ';' s).map jsTrim).filter (fun p => 0 < p.length)

/-- The destructuring `const [key, value] = pair.split('=').map(trim)`
followed by the `!key || value === undefined` validation (lines 48-51),
as a function of the split-and-trimmed parts. -/
def parsePairAux (pair : String) : List String → Except String (String × String)
  | k :: v :: _ =>
    if k = "" then
      Except.error ("Invalid partition value format: \"" ++ pair ++ "\". Expected format: key=value")
    else
      Except.ok (k, v)
  | _ =>
    Except.error ("Invalid partition value format: \"" ++ pair ++ "\". Expected format: key=value")

/-- One loop iteration of `parsePartitionValues` (lines 47-54):
`pair.split('=').map(s => s.trim())` destructured as `[key, value]`;
throws when the key is empty or the value is absent (no `=` in the
segment). -/
def parsePair (pair : String) : Except String (String × String) :=
  parsePairAux pair ((jsSplit '=' pair).map jsTrim)

/-- The `for (const pair of pairs)` loop: accumulate keys and values in
order, stopping at the first invalid pair. -/
def parsePairs : List String → Except String (List String × List String)
  | [] => Except.ok ([], [])
  | p :: ps =>
    match parsePair p with
    | Except.error m => Except.error m
    | Except.ok kv =>
      match parsePairs ps with
      | Except.error m => Except.error m
      | Except.ok kvs => Except.ok (kv.1 :: kvs.1, kv.2 :: kvs.2)

/-- Embeds `parsePartitionValues` (lines 38-61): parse the spec string into
ordered keys and values; error when any segment is invalid or when no
values result. -/
def parsePartitionValues (s : String) : Except String (List String × List String) :=
  match parsePairs (segsOf s) with
  | Except.error m => Except.error m
  | Except.ok kvs =>
    if kvs.2.length = 0 then Except.error "No partition values provided"
    else Except.ok kvs

/-- The key the source extracts from one segment: first `=`-separated
part, trimmed. -/
def pairKey (pair : String) : String :=
  ((jsSplit '=' pair).map jsTrim).headD ""

/-- Second element of a list, or a default. -/
def secondD (d : String) : List String → String
  | _ :: v :: _ => v
  | _ => d

/-- The value the source extracts from one segment: the second
`=`-separated part, trimmed (text after a second `=` is discarded by the
destructuring `const [key, value] = pair.split('=')`). -/
def pairVal (pair : String) : String :=
  secondD "" ((jsSplit '=' pair).map jsTrim)

/-- Whether an `Except` outcome is a success. -/
def exceptOk {ε α : Type} : Except ε α → Bool
  | Except.ok _ => true
  | Except.error _ => false

/-- Whether `parsePair` succeeds on a segment. -/
def pairOk (pair : String) : Bool :=
  exceptOk (parsePair pair)

/-! ## `buildS3Location` (src/partition.ts lines 66-71) -/

/-- The regex replace `prefix.replace(/^\/+|\/+$/g, '')`: remove all
leading and trailing `/` characters. -/
def cleanS3Path (p : String) : String :=
  ⟨((p.data.dropWhile (fun c => c = '/')).reverse.dropWhile (fun c => c = '/')).reverse⟩

/-- Embeds `buildS3Location` (lines 66-71). -/
def buildS3Location (bucket : String) (path : String) : String :=
  "s3://" ++ bucket ++ "/" ++ cleanS3Path path ++ "/"

/-! ## Glue data model (the parts of `@aws-sdk/client-glue` the source uses) -/

/-- Equality of `Except` outcomes is decidable when both component
types have decidable equality (used to evaluate the embedding on
concrete inputs). -/
instance {ε α : Type} [DecidableEq ε] [DecidableEq α] : DecidableEq (Except ε α) := fun a b =>
  match a, b with
  | Except.ok x, Except.ok y =>
    if h : x = y then isTrue (by rw [h]) else isFalse (by intro hh; cases hh; exact h rfl)
  | Except.error x, Except.error y =>
    if h : x = y then isTrue (by rw [h]) else isFalse (by intro hh; cases hh; exact h rfl)
  | Except.ok _, Except.error _ => isFalse (by intro hh; cases hh)
  | Except.error _, Except.ok _ => isFalse (by intro hh; cases hh)

/-- The `SerdeInfo` part of a storage descriptor. -/
structure SerdeInfo where
  SerializationLibrary : Option String := none
  deriving DecidableEq, Repr

/-- A `StorageDescriptor`: schema/format metadata. `Columns` stands for the
column list (name/type pairs); the other fields are the ones the source
reads or writes. -/
structure StorageDescriptor where
  Location : Option String := none
  InputFormat : Option String := none
  OutputFormat : Option String := none
  SerdeInfo : Option SerdeInfo := none
  Columns : List (String × String) := []
  deriving DecidableEq, Repr

/-- Embeds `PartitionConfig` (src/partition.ts lines 13-21). The
`storageDescriptor` field of the source is a JSON string fed to
`JSON.parse`; it is embedded as the outcome of that parse: `none` when
the field is absent, `some (Except.ok d)` when the JSON parses to
descriptor `d`, `some (Except.error m)` when `JSON.parse` throws with
message `m`. -/
structure PartitionConfig where
  database : String
  table : String
  partitionValues : List String
  location : Option String := none
  catalogId : Option String := none
  ifNotExists : Bool := false
  storageDescriptor : Option (Except String StorageDescriptor) := none
  deriving DecidableEq, Repr

/-- Embeds `PartitionResult` (src/partition.ts lines 23-30). `createdAt` (a JS
`Date`) is embedded as a timestamp. -/
structure PartitionResult where
  success : Bool
  «exists» : Bool
  partitionValues : List String
  location : Option String := none
  createdAt : Option Nat := none
  error : Option String := none
  deriving DecidableEq, Repr

/-- The error kinds the source distinguishes when catching: the Glue
`EntityNotFoundException`, `AlreadyExistsException`, and every other
failure; each carries its `error.message`. -/
inductive GlueError where
  | entityNotFound (msg : String)
  | alreadyExists (msg : String)
  | other (msg : String)
  deriving DecidableEq, Repr

/-- The `error.message` of a caught error. -/
def GlueError.message : GlueError → String
  | .entityNotFound m => m
  | .alreadyExists m => m
  | .other m => m

/-- The test `error instanceof EntityNotFoundException`. -/
def GlueError.isNotFound : GlueError → Bool
  | .entityNotFound _ => true
  | _ => false

/-- The test `error instanceof AlreadyExistsException`. -/
def GlueError.isAlreadyExists : GlueError → Bool
  | .alreadyExists _ => true
  | _ => false

/-- Input of `GetPartitionCommand` (lines 84-89); `DeletePartitionCommand`
has the same shape (lines 273-278). -/
structure GetPartitionRequest where
  CatalogId : Option String
  DatabaseName : String
  TableName : String
  PartitionValues : List String
  deriving DecidableEq, Repr

/-- The `PartitionInput` of `CreatePartitionCommand` (lines 224-227). -/
structure PartitionInput where
  Values : List String
  StorageDescriptor : StorageDescriptor
  deriving DecidableEq, Repr

/-- Input of `CreatePartitionCommand` (lines 220-228). -/
structure CreatePartitionRequest where
  CatalogId : Option String
  DatabaseName : String
  TableName : String
  PartitionInput : PartitionInput
  deriving DecidableEq, Repr

/-- Input of `GetTableCommand` (lines 140-144). -/
structure GetTableRequest where
  CatalogId : Option String
  DatabaseName : String
  Name : String
  deriving DecidableEq, Repr

/-- The partition object of a `GetPartitionCommand` response (lines
93-101). -/
structure GluePartition where
  StorageDescriptor : Option StorageDescriptor := none
  CreationTime : Option Nat := none
  deriving DecidableEq, Repr

/-- Response of `GetPartitionCommand`: `response.Partition` may be
absent. -/
structure GetPartitionResponse where
  Partition : Option GluePartition
  deriving DecidableEq, Repr

/-- The table object of a `GetTableCommand` response (line 147). -/
structure GlueTable where
  StorageDescriptor : Option StorageDescriptor := none
  deriving DecidableEq, Repr

/-- Response of `GetTableCommand`: `response.Table` may be absent. -/
structure GetTableResponse where
  Table : Option GlueTable
  deriving DecidableEq, Repr

/-- The remote Glue catalog, modelled as response functions: for each
command the source can send, the outcome `client.send` produces (a
response, or a thrown error). -/
structure GlueClient where
  getPartition : GetPartitionRequest → Except GlueError GetPartitionResponse
  createPartition : CreatePartitionRequest → Except GlueError Unit
  deletePartition : GetPartitionRequest → Except GlueError Unit
  getTable : GetTableRequest → Except GlueError GetTableResponse

/-- A record of one remote call issued by an operation. -/
inductive CallRec where
  | getPartition (req : GetPartitionRequest)
  | createPartition (req : CreatePartitionRequest)
  | deletePartition (req : GetPartitionRequest)
  | getTable (req : GetTableRequest)
  deriving DecidableEq, Repr

/-! ## Operation handlers

Each handler returns its `PartitionResult` together with the ordered
list of remote calls it issued. -/

/-- The `GetPartitionCommand` input built from a config (lines 84-89);
`DeletePartitionCommand` builds the identical tuple (lines 273-278). -/
def getPartitionReq (config : PartitionConfig) : GetPartitionRequest :=
  ⟨config.catalogId, config.database, config.table, config.partitionValues⟩

/-- Embeds `partitionExists` (lines 76-128). -/
def partitionExists (client : GlueClient) (config : PartitionConfig) :
    PartitionResult × List CallRec :=
  let req := getPartitionReq config
  let calls := [CallRec.getPartition req]
  match client.getPartition req with
  | Except.ok resp =>
    match resp.Partition with
    | some p =>
      (⟨true, true, config.partitionValues,
        p.StorageDescriptor.bind (fun d => d.Location), p.CreationTime, none⟩, calls)
    | none => (⟨true, false, config.partitionValues, none, none, none⟩, calls)
  | Except.error e =>
    if e.isNotFound then
      (⟨true, false, config.partitionValues, none, none, none⟩, calls)
    else
      (⟨false, false, config.partitionValues, none, none, some e.message⟩, calls)

/-- The `GetTableCommand` input built in `getTableStorageDescriptor`
(lines 140-144). -/
def getTableReq (config : PartitionConfig) : GetTableRequest :=
  ⟨config.catalogId, config.database, config.table⟩

/-- The descriptor `getTableStorageDescriptor` extracts from the
`GetTableCommand` outcome: `response.Table?.StorageDescriptor` on
success, `undefined` on any error (lines 139-151). -/
def tableDescFrom : Except GlueError GetTableResponse → Option StorageDescriptor
  | Except.ok resp => resp.Table.bind (fun t => t.StorageDescriptor)
  | Except.error _ => none

/-- Embeds `getTableStorageDescriptor` (lines 133-152): fetch the owning
table's descriptor; any fetch error is downgraded to a warning and
yields no descriptor. -/
def getTableStorageDescriptor (client : GlueClient) (config : PartitionConfig) :
    Option StorageDescriptor × List CallRec :=
  let req := getTableReq config
  (tableDescFrom (client.getTable req), [CallRec.getTable req])

/-- The minimal default storage descriptor `addPartition` synthesizes
when none is available (lines 209-216). -/
def defaultStorageDescriptor (loc : String) : StorageDescriptor :=
  { Location := some loc
    InputFormat := some "org.apache.hadoop.mapred.TextInputFormat"
    OutputFormat := some "org.apache.hadoop.hive.ql.io.HiveIgnoreKeyTextOutputFormat"
    SerdeInfo := some { SerializationLibrary := some "org.apache.hadoop.hive.serde2.lazy.LazySimpleSerDe" }
    Columns := [] }

/-- The `CreatePartitionCommand` input (lines 220-228). -/
def createPartitionReq (config : PartitionConfig) (sd : StorageDescriptor) :
    CreatePartitionRequest :=
  ⟨config.catalogId, config.database, config.table, ⟨config.partitionValues, sd⟩⟩

/-- The tail of `addPartition` after the descriptor is resolved (lines
204-259): overwrite / synthesize the location, send
`CreatePartitionCommand`, and fold an `AlreadyExistsException` into
success when `ifNotExists` is set. -/
def addPartitionCreate (client : GlueClient) (config : PartitionConfig)
    (loc : String) (desc : Option StorageDescriptor) (calls : List CallRec) :
    PartitionResult × List CallRec :=
  let sd :=
    match desc with
    | some d => { d with Location := some loc }
    | none => defaultStorageDescriptor loc
  let req := createPartitionReq config sd
  let calls := calls ++ [CallRec.createPartition req]
  match client.createPartition req with
  | Except.ok _ =>
    (⟨true, true, config.partitionValues, some loc, none, none⟩, calls)
  | Except.error e =>
    if e.isAlreadyExists && config.ifNotExists then
      (⟨true, true, config.partitionValues, some loc, none, none⟩, calls)
    else
      (⟨false, false, config.partitionValues, none, none, some e.message⟩, calls)

/-- The descriptor-resolution step of `addPartition` (lines 184-218)
followed by the create call: custom descriptor (a `JSON.parse` failure
is caught by the function's catch block), else inherit from the table,
else the minimal default. -/
def addPartitionResolve (client : GlueClient) (config : PartitionConfig)
    (loc : String) (calls : List CallRec) : PartitionResult × List CallRec :=
  match config.storageDescriptor with
  | some (Except.error m) =>
    (⟨false, false, config.partitionValues, none, none, some m⟩, calls)
  | some (Except.ok d) => addPartitionCreate client config loc (some d) calls
  | none =>
    let td := getTableStorageDescriptor client config
    addPartitionCreate client config loc td.1 (calls ++ td.2)

/-- The body of `addPartition` once a location is present (lines
166-259): optional existence pre-check, descriptor resolution per the
custom / inherited / synthesized chain, then the create call. -/
def addPartitionWithLoc (client : GlueClient) (config : PartitionConfig)
    (loc : String) : PartitionResult × List CallRec :=
  if config.ifNotExists then
    let er := partitionExists client config
    if er.1.«exists» then
      (⟨true, true, config.partitionValues, er.1.location, none, none⟩, er.2)
    else
      addPartitionResolve client config loc er.2
  else
    addPartitionResolve client config loc []

/-- Embeds `addPartition` (lines 157-260). The thrown `MissingLocation` error
(line 163) is caught by the function's own catch block, producing a
failed result before any remote call. A `JSON.parse` failure on a custom
descriptor (line 189) is likewise caught there, after the pre-check's
calls but before any further call. -/
def addPartition (client : GlueClient) (config : PartitionConfig) :
    PartitionResult × List CallRec :=
  match config.location with
  | none =>
    (⟨false, false, config.partitionValues, none, none,
      some "S3 location (s3-bucket and s3-prefix) is required for add operation"⟩, [])
  | some loc => addPartitionWithLoc client config loc

/-- Embeds `deletePartition` (lines 265-308). -/
def deletePartition (client : GlueClient) (config : PartitionConfig) :
    PartitionResult × List CallRec :=
  let req := getPartitionReq config
  let calls := [CallRec.deletePartition req]
  match client.deletePartition req with
  | Except.ok _ => (⟨true, false, config.partitionValues, none, none, none⟩, calls)
  | Except.error e =>
    if e.isNotFound then
      (⟨true, false, config.partitionValues, none, none, none⟩, calls)
    else
      (⟨false, false, config.partitionValues, none, none, some e.message⟩, calls)

/-- Whether a config's custom descriptor field, if present, parses
(`JSON.parse` on line 189 does not throw). -/
def descOk (config : PartitionConfig) : Bool :=
  match config.storageDescriptor with
  | some (Except.error _) => false
  | _ => true

/-! ## Concrete fixtures (used to evaluate the embedding) -/

/-- A concrete add/exists/delete configuration with `ifNotExists` set. -/
def cfgA : PartitionConfig :=
  { database := "analytics"
    table := "events"
    partitionValues := ["2025", "11"]
    location := some "s3://data-lake/raw/events/"
    catalogId := none
    ifNotExists := true
    storageDescriptor := none }

/-- The config `cfgA` with `ifNotExists` disabled. -/
def cfgB : PartitionConfig :=
  { cfgA with ifNotExists := false }

/-- The config `cfgA` without a location. -/
def cfgNoLoc : PartitionConfig :=
  { cfgA with location := none }

/-- An existing catalog partition with its own location and creation
time. -/
def partA : GluePartition :=
  { StorageDescriptor := some { Location := some "s3://data-lake/existing/" }
    CreationTime := some 1732406400 }

/-- A catalog in which the partition exists. -/
def clientFound : GlueClient :=
  { getPartition := fun _ => Except.ok ⟨some partA⟩
    createPartition := fun _ => Except.ok ()
    deletePartition := fun _ => Except.ok ()
    getTable := fun _ => Except.ok ⟨none⟩ }

/-- A catalog in which neither the partition nor the table exists. -/
def clientEmpty : GlueClient :=
  { getPartition := fun _ => Except.error (GlueError.entityNotFound "Partition not found")
    createPartition := fun _ => Except.ok ()
    deletePartition := fun _ => Except.error (GlueError.entityNotFound "Partition not found")
    getTable := fun _ => Except.error (GlueError.entityNotFound "Table not found") }

/-- A catalog that rejects every call with a non-not-found error. -/
def clientDown : GlueClient :=
  { getPartition := fun _ => Except.error (GlueError.other "AccessDeniedException")
    createPartition := fun _ => Except.error (GlueError.other "AccessDeniedException")
    deletePartition := fun _ => Except.error (GlueError.other "AccessDeniedException")
    getTable := fun _ => Except.error (GlueError.other "AccessDeniedException") }

/-- A catalog exhibiting the create race: the existence check reports
not-found, then the create call reports the partition already exists. -/
def clientRace : GlueClient :=
  { getPartition := fun _ => Except.error (GlueError.entityNotFound "Partition not found")
    createPartition := fun _ => Except.error (GlueError.alreadyExists "Partition already exists")
    deletePartition := fun _ => Except.ok ()
    getTable := fun _ => Except.ok ⟨none⟩ }

/-- A catalog whose reads fail with a non-not-found error but whose
create call succeeds. -/
def clientFlaky : GlueClient :=
  { getPartition := fun _ => Except.error (GlueError.other "ThrottlingException")
    createPartition := fun _ => Except.ok ()
    deletePartition := fun _ => Except.ok ()
    getTable := fun _ => Except.error (GlueError.other "ThrottlingException") }

/-! ## Helper lemmas -/

/-- A segment on which `parsePair` succeeds yields exactly its first
trimmed `=`-part as key and its second as value. -/
theorem parsePair_eq_ok (p : String) (h : pairOk p = true) :
    parsePair p = Except.ok (pairKey p, pairVal p) := by
  unfold pairOk parsePair pairKey pairVal at *
  generalize (jsSplit '=' p).map jsTrim = l at *
  rcases l with _ | ⟨k, _ | ⟨v, rest⟩⟩
  · simp [parsePairAux, exceptOk] at h
  · simp [parsePairAux, exceptOk] at h
  · by_cases hk : k = ""
    · simp [parsePairAux, hk, exceptOk] at h
    · simp [parsePairAux, hk, secondD]

/-- The parsing loop succeeds on a list of segments on which every
`parsePair` succeeds, returning the keys and values in order. -/
theorem parsePairs_ok (l : List String) (h : ∀ p ∈ l, pairOk p = true) :
    parsePairs l = Except.ok (l.map pairKey, l.map pairVal) := by
  induction l with
  | nil => rfl
  | cons p ps ih =>
    have hp := parsePair_eq_ok p (h p (by simp))
    have hps := ih (fun q hq => h q (by simp [hq]))
    simp [parsePairs, hp, hps]

/-! ## Claims -/

/-- C3 counterexample: the claim predicts that for the spec string
`"k=a=b"` (one segment, containing `=`, non-empty key) the value is the
entire remainder `"a=b"`; the code instead destructures
`pair.split('=')` into its first two parts, so the value is `"a"` and
the text after the second `=` is dropped. Moreover for the spec string
`""` (zero segments, so the claim's per-segment premise holds
vacuously) parse does not return the empty key and value lists: it
errors. -/
theorem parsePartitionValues_remainder_counterexample :
    (parsePartitionValues "k=a=b" ≠ Except.ok (["k"], ["a=b"]) ∧
      parsePartitionValues "k=a=b" = Except.ok (["k"], ["a"])) ∧
    parsePartitionValues "" = Except.error "No partition values provided" := by
  refine ⟨⟨?_, ?_⟩, ?_⟩
  · decide
  · decide
  · decide

/-- C3 (amended): for every spec string with at least one segment
(after splitting on `;`, trimming, and discarding empty segments) such
that every segment splits on `=` with a non-empty key, `parse` returns
the keys and the values in input order with no deduplication, where
each segment's key is the trimmed text before the first `=` and its
value is the trimmed text between the first and the second `=` (the
whole trimmed remainder when there is no second `=`; it may be empty;
text after a second `=` is discarded). -/
theorem parsePartitionValues_ok (s : String)
    (h1 : segsOf s ≠ [])
    (h2 : ∀ p ∈ segsOf s, pairOk p = true) :
    parsePartitionValues s = Except.ok ((segsOf s).map pairKey, (segsOf s).map pairVal) := by
  unfold parsePartitionValues
  rw [parsePairs_ok (segsOf s) h2]
  simp [h1]

/-- C3 witness: the amended parse theorem evaluated on a concrete
three-segment spec. -/
theorem parsePartitionValues_ok_witness :
    parsePartitionValues "year=2025;month=11;day=24" =
      Except.ok (["year", "month", "day"], ["2025", "11", "24"]) := by
  have h := parsePartitionValues_ok "year=2025;month=11;day=24" (by decide) (by decide)
  exact h.trans (by decide)

/-- C4: `buildS3Location root path` equals
`"s3://" ++ root ++ "/" ++ (path with all leading and trailing slashes
removed) ++ "/"`; the result always ends in the separator; stripping is
insensitive to leading/trailing slash noise, so
`build(root, "/a/b/") = build(root, "a/b") = "s3://root/a/b/"`; the
function is total on all string inputs. -/
theorem buildS3Location_canonical (root path : String) :
    buildS3Location root path = "s3://" ++ root ++ "/" ++ cleanS3Path path ++ "/" ∧
    (buildS3Location root path).data.getLast? = some '/' ∧
    buildS3Location root "/a/b/" = buildS3Location root "a/b" ∧
    buildS3Location root "a/b" = "s3://" ++ root ++ "/a/b/" := by
  refine ⟨rfl, ?_, ?_, ?_⟩
  · show (("s3://" ++ root ++ "/" ++ cleanS3Path path) ++ "/").data.getLast? = some '/'
    rw [String.data_append, show ("/" : String).data = ['/'] from rfl]
    exact List.getLast?_concat _
  · show "s3://" ++ root ++ "/" ++ cleanS3Path "/a/b/" ++ "/" =
        "s3://" ++ root ++ "/" ++ cleanS3Path "a/b" ++ "/"
    rw [show cleanS3Path "/a/b/" = cleanS3Path "a/b" from by decide]
  · show "s3://" ++ root ++ "/" ++ cleanS3Path "a/b" ++ "/" = "s3://" ++ root ++ "/a/b/"
    rw [show cleanS3Path "a/b" = "a/b" from by decide]
    apply String.ext
    simp [String.data_append]

/-- An element is a member of a list extended with it. -/
theorem mem_append_singleton {α : Type} (a : α) (l : List α) : a ∈ l ++ [a] :=
  List.mem_append_right l (List.mem_singleton_self a)

/-- C7: `Exists` copies location and creation time from a found
partition; a not-found error yields `success=true, exists=false`; any
other remote failure yields `success=false, exists=false` with the
error message. -/
theorem partitionExists_cases (client : GlueClient) (config : PartitionConfig) :
    (∀ p, client.getPartition (getPartitionReq config) = Except.ok ⟨some p⟩ →
      (partitionExists client config).1 =
        ⟨true, true, config.partitionValues,
          p.StorageDescriptor.bind (fun d => d.Location), p.CreationTime, none⟩) ∧
    (∀ m, client.getPartition (getPartitionReq config) = Except.error (GlueError.entityNotFound m) →
      (partitionExists client config).1 = ⟨true, false, config.partitionValues, none, none, none⟩) ∧
    (∀ e, client.getPartition (getPartitionReq config) = Except.error e → e.isNotFound = false →
      (partitionExists client config).1 =
        ⟨false, false, config.partitionValues, none, none, some e.message⟩) := by
  refine ⟨fun p h => ?_, fun m h => ?_, fun e h hnf => ?_⟩
  · simp [partitionExists, h]
  · simp [partitionExists, h, GlueError.isNotFound]
  · simp [partitionExists, h, hnf]

/-- C7 witness: the three `Exists` outcomes evaluated on concrete
catalogs. -/
theorem partitionExists_cases_witness :
    (partitionExists clientFound cfgA).1 =
      ⟨true, true, cfgA.partitionValues,
        partA.StorageDescriptor.bind (fun d => d.Location), partA.CreationTime, none⟩ ∧
    (partitionExists clientEmpty cfgA).1 = ⟨true, false, cfgA.partitionValues, none, none, none⟩ ∧
    (partitionExists clientDown cfgA).1 =
      ⟨false, false, cfgA.partitionValues, none, none,
        some (GlueError.other "AccessDeniedException").message⟩ :=
  ⟨(partitionExists_cases clientFound cfgA).1 partA rfl,
   (partitionExists_cases clientEmpty cfgA).2.1 "Partition not found" rfl,
   (partitionExists_cases clientDown cfgA).2.2 (GlueError.other "AccessDeniedException") rfl rfl⟩

/-- C6: `Delete` yields `success=true, exists=false` both on a
successful delete and on a not-found error (so two consecutive deletes
both succeed with `exists=false`); any other remote failure yields
`success=false, exists=false` with the error message. -/
theorem deletePartition_cases (client : GlueClient) (config : PartitionConfig) :
    (client.deletePartition (getPartitionReq config) = Except.ok () →
      (deletePartition client config).1 = ⟨true, false, config.partitionValues, none, none, none⟩) ∧
    (∀ m, client.deletePartition (getPartitionReq config) = Except.error (GlueError.entityNotFound m) →
      (deletePartition client config).1 = ⟨true, false, config.partitionValues, none, none, none⟩) ∧
    (∀ e, client.deletePartition (getPartitionReq config) = Except.error e → e.isNotFound = false →
      (deletePartition client config).1 =
        ⟨false, false, config.partitionValues, none, none, some e.message⟩) := by
  refine ⟨fun h => ?_, fun m h => ?_, fun e h hnf => ?_⟩
  · simp [deletePartition, h]
  · simp [deletePartition, h, GlueError.isNotFound]
  · simp [deletePartition, h, hnf]

/-- C6 witness: a first delete on a catalog holding the partition and a
second delete on the now-empty catalog both yield
`success=true, exists=false`; a failing catalog yields the error. -/
theorem deletePartition_cases_witness :
    (deletePartition clientFound cfgA).1 = ⟨true, false, cfgA.partitionValues, none, none, none⟩ ∧
    (deletePartition clientEmpty cfgA).1 = ⟨true, false, cfgA.partitionValues, none, none, none⟩ ∧
    (deletePartition clientDown cfgA).1 =
      ⟨false, false, cfgA.partitionValues, none, none,
        some (GlueError.other "AccessDeniedException").message⟩ :=
  ⟨(deletePartition_cases clientFound cfgA).1 rfl,
   (deletePartition_cases clientEmpty cfgA).2.1 "Partition not found" rfl,
   (deletePartition_cases clientDown cfgA).2.2 (GlueError.other "AccessDeniedException") rfl rfl⟩

/-- C5: `Add` on a config without a location fails with the
missing-location error message and issues zero remote calls. -/
theorem addPartition_missingLocation (client : GlueClient) (config : PartitionConfig)
    (h : config.location = none) :
    addPartition client config =
      (⟨false, false, config.partitionValues, none, none,
        some "S3 location (s3-bucket and s3-prefix) is required for add operation"⟩, []) := by
  simp [addPartition, h]

/-- C5 witness: `Add` without a location on a concrete catalog. -/
theorem addPartition_missingLocation_witness :
    addPartition clientFound cfgNoLoc =
      (⟨false, false, cfgNoLoc.partitionValues, none, none,
        some "S3 location (s3-bucket and s3-prefix) is required for add operation"⟩, []) :=
  addPartition_missingLocation clientFound cfgNoLoc rfl

/-- Every branch of the create tail keeps the config's partition
values. -/
theorem addPartitionCreate_values (client : GlueClient) (config : PartitionConfig)
    (loc : String) (desc : Option StorageDescriptor) (calls : List CallRec) :
    (addPartitionCreate client config loc desc calls).1.partitionValues = config.partitionValues := by
  unfold addPartitionCreate
  dsimp only
  split
  · rfl
  · split <;> rfl

/-- Every branch of descriptor resolution keeps the config's partition
values. -/
theorem addPartitionResolve_values (client : GlueClient) (config : PartitionConfig)
    (loc : String) (calls : List CallRec) :
    (addPartitionResolve client config loc calls).1.partitionValues = config.partitionValues := by
  unfold addPartitionResolve
  split
  · rfl
  · exact addPartitionCreate_values ..
  · exact addPartitionCreate_values ..

/-- C9: on every outcome, each of the three operations returns a result
whose `partitionValues` equal the config's. -/
theorem results_preserve_partitionValues (client : GlueClient) (config : PartitionConfig) :
    (partitionExists client config).1.partitionValues = config.partitionValues ∧
    (addPartition client config).1.partitionValues = config.partitionValues ∧
    (deletePartition client config).1.partitionValues = config.partitionValues := by
  refine ⟨?_, ?_, ?_⟩
  · unfold partitionExists
    dsimp only
    split
    · split <;> rfl
    · split <;> rfl
  · unfold addPartition
    split
    · rfl
    · unfold addPartitionWithLoc
      dsimp only
      split
      · split
        · rfl
        · exact addPartitionResolve_values ..
      · exact addPartitionResolve_values ..
  · unfold deletePartition
    dsimp only
    split
    · rfl
    · split <;> rfl

/-- C1: with `ifNotExists` set and the existence check reporting the
partition present, `Add` returns `success=true, exists=true` with the
existing partition's location and issues no create call; hence a second
`Add` with identical config after the partition exists performs no
create call. -/
theorem addPartition_ifNotExists_shortcircuit (client : GlueClient) (config : PartitionConfig)
    (loc : String) (p : GluePartition)
    (hloc : config.location = some loc)
    (hine : config.ifNotExists = true)
    (hget : client.getPartition (getPartitionReq config) = Except.ok ⟨some p⟩) :
    (addPartition client config).1 =
      ⟨true, true, config.partitionValues, p.StorageDescriptor.bind (fun d => d.Location), none, none⟩ ∧
    ∀ req, CallRec.createPartition req ∉ (addPartition client config).2 := by
  have hpe : partitionExists client config =
      (⟨true, true, config.partitionValues, p.StorageDescriptor.bind (fun d => d.Location),
        p.CreationTime, none⟩, [CallRec.getPartition (getPartitionReq config)]) := by
    simp [partitionExists, hget]
  have hadd : addPartition client config =
      (⟨true, true, config.partitionValues, p.StorageDescriptor.bind (fun d => d.Location), none, none⟩,
        [CallRec.getPartition (getPartitionReq config)]) := by
    simp [addPartition, hloc, addPartitionWithLoc, hine, hpe]
  rw [hadd]
  exact ⟨rfl, fun req => by simp⟩

/-- C1 witness: `Add` on a catalog already holding the partition. -/
theorem addPartition_ifNotExists_shortcircuit_witness :
    (addPartition clientFound cfgA).1 =
      ⟨true, true, cfgA.partitionValues, partA.StorageDescriptor.bind (fun d => d.Location),
        none, none⟩ ∧
    ∀ req, CallRec.createPartition req ∉ (addPartition clientFound cfgA).2 :=
  addPartition_ifNotExists_shortcircuit clientFound cfgA "s3://data-lake/raw/events/" partA
    rfl rfl rfl

/-- C2: when the create call fails with "already exists" (and the
flow reaches the create call: location set, custom descriptor parses,
any pre-check reported not-present), `Add` returns
`success=true, exists=true, location=config.location` when
`ifNotExists` is set and a failed result carrying the error message
otherwise. -/
theorem addPartition_alreadyExists_race (client : GlueClient) (config : PartitionConfig)
    (loc msg : String)
    (hloc : config.location = some loc)
    (hdesc : descOk config = true)
    (hpre : config.ifNotExists = true → (partitionExists client config).1.«exists» = false)
    (hcr : ∀ req, client.createPartition req = Except.error (GlueError.alreadyExists msg)) :
    (addPartition client config).1 =
      if config.ifNotExists then ⟨true, true, config.partitionValues, some loc, none, none⟩
      else ⟨false, false, config.partitionValues, none, none, some msg⟩ := by
  have hcreate : ∀ desc calls, (addPartitionCreate client config loc desc calls).1 =
      if config.ifNotExists then ⟨true, true, config.partitionValues, some loc, none, none⟩
      else ⟨false, false, config.partitionValues, none, none, some msg⟩ := by
    intro desc calls
    unfold addPartitionCreate
    dsimp only
    rw [hcr]
    cases hin : config.ifNotExists <;>
      simp [hin, GlueError.isAlreadyExists, GlueError.message]
  have hres : ∀ calls, (addPartitionResolve client config loc calls).1 =
      if config.ifNotExists then ⟨true, true, config.partitionValues, some loc, none, none⟩
      else ⟨false, false, config.partitionValues, none, none, some msg⟩ := by
    intro calls
    unfold addPartitionResolve
    rcases hsd : config.storageDescriptor with _ | (m | d)
    · dsimp only
      exact hcreate ..
    · unfold descOk at hdesc
      rw [hsd] at hdesc
      simp at hdesc
    · dsimp only
      exact hcreate ..
  cases hin : config.ifNotExists
  · simp only [addPartition, hloc]
    unfold addPartitionWithLoc
    simp only [hin, Bool.false_eq_true, if_false]
    rw [hres]
    simp [hin]
  · have hx := hpre hin
    simp only [addPartition, hloc]
    unfold addPartitionWithLoc
    dsimp only
    simp only [hin, if_true, hx, Bool.false_eq_true, if_false]
    rw [hres]
    simp [hin]

/-- C2 witness: the race on a catalog whose create call reports
"already exists", once with `ifNotExists` set and once without. -/
theorem addPartition_alreadyExists_race_witness :
    (addPartition clientRace cfgA).1 =
      ⟨true, true, cfgA.partitionValues, some "s3://data-lake/raw/events/", none, none⟩ ∧
    (addPartition clientRace cfgB).1 =
      ⟨false, false, cfgB.partitionValues, none, none, some "Partition already exists"⟩ :=
  ⟨addPartition_alreadyExists_race clientRace cfgA "s3://data-lake/raw/events/"
      "Partition already exists" rfl rfl (fun _ => rfl) (fun _ => rfl),
   addPartition_alreadyExists_race clientRace cfgB "s3://data-lake/raw/events/"
      "Partition already exists" rfl rfl (fun h => by cases h) (fun _ => rfl)⟩

/-- C8: in `Add` without a custom descriptor, when the table-descriptor
fetch yields nothing (in particular when it fails: any fetch error is
downgraded to no-descriptor), `Add` still issues the create call, with
the synthesized minimal default descriptor (text input/output formats,
`LazySimpleSerDe`) whose location is `config.location`; if that create
call succeeds the whole operation succeeds. -/
theorem addPartition_defaultDescriptor (client : GlueClient) (config : PartitionConfig)
    (loc : String)
    (hloc : config.location = some loc)
    (hcustom : config.storageDescriptor = none)
    (hpre : config.ifNotExists = true → (partitionExists client config).1.«exists» = false)
    (htbl : tableDescFrom (client.getTable (getTableReq config)) = none) :
    CallRec.createPartition (createPartitionReq config (defaultStorageDescriptor loc)) ∈
      (addPartition client config).2 ∧
    (client.createPartition (createPartitionReq config (defaultStorageDescriptor loc)) =
        Except.ok () →
      (addPartition client config).1 =
        ⟨true, true, config.partitionValues, some loc, none, none⟩) := by
  have hres : ∀ calls, addPartitionResolve client config loc calls =
      addPartitionCreate client config loc none
        (calls ++ [CallRec.getTable (getTableReq config)]) := by
    intro calls
    unfold addPartitionResolve
    rw [hcustom]
    simp [getTableStorageDescriptor, htbl]
  have hmain : ∃ cs, addPartition client config =
      addPartitionCreate client config loc none
        (cs ++ [CallRec.getTable (getTableReq config)]) := by
    cases hin : config.ifNotExists
    · refine ⟨[], ?_⟩
      simp only [addPartition, hloc]
      unfold addPartitionWithLoc
      simp only [hin, Bool.false_eq_true, if_false]
      exact hres []
    · refine ⟨(partitionExists client config).2, ?_⟩
      simp only [addPartition, hloc]
      unfold addPartitionWithLoc
      dsimp only
      simp only [hin, if_true, hpre hin, Bool.false_eq_true, if_false]
      exact hres _
  obtain ⟨cs, hcs⟩ := hmain
  rw [hcs]
  unfold addPartitionCreate
  dsimp only
  constructor
  · split
    · simp
    · split <;> simp
  · intro hok
    simp [hok]

/-- C8 witness: `Add` on a catalog where the table lookup fails; the
create call is issued with the default descriptor and succeeds. -/
theorem addPartition_defaultDescriptor_witness :
    CallRec.createPartition
        (createPartitionReq cfgA (defaultStorageDescriptor "s3://data-lake/raw/events/")) ∈
      (addPartition clientEmpty cfgA).2 ∧
    (addPartition clientEmpty cfgA).1 =
      ⟨true, true, cfgA.partitionValues, some "s3://data-lake/raw/events/", none, none⟩ :=
  ⟨(addPartition_defaultDescriptor clientEmpty cfgA "s3://data-lake/raw/events/"
      rfl rfl (fun _ => rfl) rfl).1,
   (addPartition_defaultDescriptor clientEmpty cfgA "s3://data-lake/raw/events/"
      rfl rfl (fun _ => rfl) rfl).2 rfl⟩

/-- C10: with `ifNotExists` set, when the existence pre-check itself
fails with a remote error other than not-found, `Add` does not return
that failure: it proceeds and attempts the create call. -/
theorem addPartition_precheckFailure_proceeds (client : GlueClient) (config : PartitionConfig)
    (loc : String) (e : GlueError)
    (hloc : config.location = some loc)
    (hine : config.ifNotExists = true)
    (hdesc : descOk config = true)
    (hget : client.getPartition (getPartitionReq config) = Except.error e)
    (hnf : e.isNotFound = false) :
    ∃ req, CallRec.createPartition req ∈ (addPartition client config).2 := by
  have hpe : partitionExists client config =
      (⟨false, false, config.partitionValues, none, none, some e.message⟩,
        [CallRec.getPartition (getPartitionReq config)]) := by
    simp [partitionExists, hget, hnf]
  have hcreate : ∀ desc calls, ∃ req,
      CallRec.createPartition req ∈ (addPartitionCreate client config loc desc calls).2 := by
    intro desc calls
    unfold addPartitionCreate
    dsimp only
    split
    · exact ⟨_, mem_append_singleton ..⟩
    · split
      · exact ⟨_, mem_append_singleton ..⟩
      · exact ⟨_, mem_append_singleton ..⟩
  have hresolve : ∀ calls, ∃ req,
      CallRec.createPartition req ∈ (addPartitionResolve client config loc calls).2 := by
    intro calls
    unfold addPartitionResolve
    rcases hsd : config.storageDescriptor with _ | (m | d)
    · dsimp only
      exact hcreate ..
    · unfold descOk at hdesc
      rw [hsd] at hdesc
      simp at hdesc
    · dsimp only
      exact hcreate ..
  simp only [addPartition, hloc]
  unfold addPartitionWithLoc
  dsimp only
  simp only [hine, if_true, hpe, Bool.false_eq_true, if_false]
  exact hresolve _

/-- C10 witness: `Add` on a catalog whose existence check fails with a
throttling error still issues a create call. -/
theorem addPartition_precheckFailure_proceeds_witness :
    ∃ req, CallRec.createPartition req ∈ (addPartition clientFlaky cfgA).2 :=
  addPartition_precheckFailure_proceeds clientFlaky cfgA "s3://data-lake/raw/events/"
    (GlueError.other "ThrottlingException") rfl rfl rfl rfl rfl

end GluePartitionManager
